import Mathlib

/-!
Shallow embedding of `pambu.py`, a terminal snake game.  The geometric
core (Point, Direction, LineSegment, Snake) is translated here; curses
calls are modelled by returning the data that would be written (the
corner glyph and its position for `join`), and `sys.exit` on collision
is modelled by `Snake.move` returning `none`.  Python integers become
`Int`; Python object mutation becomes functional update, with the
aliasing of `first_seg`/`last_seg` into the points list reproduced by
operating on the current list at each phase of `move`.
-/

/-- Embeds `Direction` (pambu.py line 12): a 4-way compass enum. -/
inductive Direction
  | north
  | east
  | south
  | west
deriving DecidableEq, Repr

/-- Embeds `Direction.is_opp` (pambu.py lines 15-19). -/
def Direction.is_opp (d other : Direction) : Bool :=
  (decide (d = .north) && decide (other = .south)) ||
  (decide (d = .south) && decide (other = .north)) ||
  (decide (d = .east) && decide (other = .west)) ||
  (decide (d = .west) && decide (other = .east))

/-- Embeds `Point` (pambu.py line 22): a y and x integer coordinate. -/
structure Point where
  y : Int
  x : Int
deriving DecidableEq, Repr

/-- Embeds `Point.is_to_the_left_of` (line 49): non-strict `<=` on x. -/
def Point.is_to_the_left_of (p other : Point) : Bool :=
  decide (p.x ≤ other.x)

/-- Embeds `Point.is_to_the_right_of` (line 52): non-strict `>=` on x. -/
def Point.is_to_the_right_of (p other : Point) : Bool :=
  decide (p.x ≥ other.x)

/-- Embeds `Point.is_above` (line 55): non-strict `<=` on y. -/
def Point.is_above (p other : Point) : Bool :=
  decide (p.y ≤ other.y)

/-- Embeds `Point.is_below` (line 58): non-strict `>=` on y. -/
def Point.is_below (p other : Point) : Bool :=
  decide (p.y ≥ other.y)

/-- Embeds `Point.move` (lines 61-70): one grid unit in a direction. -/
def Point.move (p : Point) (d : Direction) : Point :=
  match d with
  | .north => { p with y := p.y - 1 }
  | .west  => { p with x := p.x - 1 }
  | .south => { p with y := p.y + 1 }
  | .east  => { p with x := p.x + 1 }

/-- Embeds `LineSegment` (line 73): a head and a tail point. -/
structure LineSegment where
  head : Point
  tail : Point
deriving DecidableEq, Repr

/-- Embeds `LineSegment.is_vertical` (line 92): same x on both ends. -/
def LineSegment.is_vertical (s : LineSegment) : Bool :=
  decide (s.head.x = s.tail.x)

/-- Embeds `LineSegment.is_horizontal` (line 95): same y on both ends. -/
def LineSegment.is_horizontal (s : LineSegment) : Bool :=
  decide (s.head.y = s.tail.y)

/-- Embeds `LineSegment.increment` (lines 98-109): move the head one
unit further away from the tail along the segment's axis (horizontal
checked first, as in the source); non-axis-aligned segments are left
unchanged (no `else` branch in the source). -/
def LineSegment.increment (s : LineSegment) : LineSegment :=
  if s.is_horizontal then
    if s.head.x < s.tail.x then { s with head := s.head.move .west }
    else { s with head := s.head.move .east }
  else if s.is_vertical then
    if s.head.y < s.tail.y then { s with head := s.head.move .north }
    else { s with head := s.head.move .south }
  else s

/-- Embeds `LineSegment.decrement` (lines 111-122): move the tail one
unit, using the same comparison logic as `increment` (horizontal branch
first); non-axis-aligned segments are left unchanged. -/
def LineSegment.decrement (s : LineSegment) : LineSegment :=
  if s.is_horizontal then
    if s.head.x < s.tail.x then { s with tail := s.tail.move .west }
    else { s with tail := s.tail.move .east }
  else if s.is_vertical then
    if s.head.y < s.tail.y then { s with tail := s.tail.move .north }
    else { s with tail := s.tail.move .south }
  else s

/-- Embeds `LineSegment.lies_on` (lines 135-139); the Python function
falls through (returning the falsy `None`) for a segment that is
neither horizontal nor vertical, modelled as `false`. -/
def LineSegment.lies_on (s : LineSegment) (p : Point) : Bool :=
  if s.is_horizontal then
    decide (p.x ≤ max s.head.x s.tail.x) &&
    decide (p.x ≥ min s.head.x s.tail.x) &&
    decide (p.y = s.head.y)
  else if s.is_vertical then
    decide (p.y ≤ max s.head.y s.tail.y) &&
    decide (p.y ≥ min s.head.y s.tail.y) &&
    decide (p.x = s.head.x)
  else false

/-- Embeds `LineSegment.intersection_point` (lines 141-148): shared
endpoint of two segments, head checked before tail. -/
def LineSegment.intersection_point (s o : LineSegment) : Option Point :=
  if s.head = o.head ∨ s.head = o.tail then some s.head
  else if s.tail = o.head ∨ s.tail = o.tail then some s.tail
  else none

/-- The four curses corner glyphs used by `join` (ACS_ULCORNER,
ACS_LLCORNER, ACS_URCORNER, ACS_LRCORNER). -/
inductive Corner
  | ulcorner
  | llcorner
  | urcorner
  | lrcorner
deriving DecidableEq, Repr

/-- Embeds the nested `join_char` of `LineSegment.join` (lines
151-171): pick a corner glyph from the intersection point's position
relative to the horizontal and vertical segments' endpoints, with the
source's branch order (left before right, above before below). -/
def joinChar (ipoint : Point) (hline vline : LineSegment) : Option Corner :=
  if ipoint.is_to_the_left_of hline.head && ipoint.is_to_the_left_of hline.tail then
    if ipoint.is_above vline.head && ipoint.is_above vline.tail then
      some .ulcorner
    else if ipoint.is_below vline.head && ipoint.is_below vline.tail then
      some .llcorner
    else none
  else if ipoint.is_to_the_right_of hline.head && ipoint.is_to_the_right_of hline.tail then
    if ipoint.is_above vline.head && ipoint.is_above vline.tail then
      some .urcorner
    else if ipoint.is_below vline.head && ipoint.is_below vline.tail then
      some .lrcorner
    else none
  else none

/-- Embeds `LineSegment.join` (lines 150-192).  The curses write
`window.addch(ipoint.y, ipoint.x, ch)` is modelled by returning the
glyph together with the point it is written at; every no-op path of the
source returns `none`.  Vertical is tested before horizontal for each
argument, and `other`'s assignment overwrites `self`'s, as in the
source. -/
def LineSegment.join (s o : LineSegment) : Option (Corner × Point) :=
  let vline0 : Option LineSegment := if s.is_vertical then some s else none
  let hline0 : Option LineSegment :=
    if !s.is_vertical && s.is_horizontal then some s else none
  let vline : Option LineSegment := if o.is_vertical then some o else vline0
  let hline : Option LineSegment :=
    if !o.is_vertical && o.is_horizontal then some o else hline0
  match hline, vline with
  | some h, some v =>
    if h ≠ v then
      match h.intersection_point v with
      | some ipoint =>
        match joinChar ipoint h v with
        | some ch => some (ch, ipoint)
        | none => none
      | none => none
    else none
  | _, _ => none

/-- Embeds `Snake` (line 195): an ordered points list and a direction. -/
structure Snake where
  points : List Point
  direction : Direction
deriving DecidableEq, Repr

/-- The line segments between consecutive points of a list, in order:
the segments that `zip(pts[:-1], pts[1:])` style iteration builds. -/
def segsFrom : List Point → List LineSegment
  | a :: b :: rest => LineSegment.mk a b :: segsFrom (b :: rest)
  | _ => []

/-- Embeds `Snake.detect_collision` (lines 219-227):
`zip(self.points[1:-1], self.points[2:])` builds exactly the segments
between consecutive points of `points[1:]`, i.e. every body segment
except the first (head) one; the `sys.exit` on a hit is modelled by
returning `true`. -/
def Snake.detect_collision (s : Snake) : Bool :=
  match s.points with
  | [] => false
  | head :: rest => (segsFrom rest).any fun seg => seg.lies_on head

/-- The straight-continuation test of `Snake.move` (lines 234-236):
`direction is None or direction == self.direction or
direction.is_opp(self.direction)`. -/
def goesStraight (d : Option Direction) (cur : Direction) : Bool :=
  match d with
  | none => true
  | some dir => decide (dir = cur) || dir.is_opp cur

/-- The head-update phase of `Snake.move` (lines 231-242): either
`first_seg.increment()` (which, through aliasing, rewrites
`self.points[0]` in place) or prepending a moved deep copy of the head
and updating the direction.  A snake with fewer than 2 points would
raise an IndexError in the source; it is returned unchanged here and
excluded by `Snake.move`. -/
def Snake.headUpdate (s : Snake) (d : Option Direction) : Snake :=
  match s.points, d with
  | p0 :: p1 :: rest, d =>
    if goesStraight d s.direction then
      { s with points := (LineSegment.mk p0 p1).increment.head :: p1 :: rest }
    else
      match d with
      | some dir => { points := p0.move dir :: p0 :: p1 :: rest, direction := dir }
      | none => s
  | _, _ => s

/-- The tail-shrink phase of `Snake.move` (lines 244-246):
`last_seg.decrement()` rewrites `self.points[-1]` through aliasing
(its head `self.points[-2]` already holds the post-increment value when
the list has just 2 points), and the point is deleted when the
decremented segment's Euclidean length is 0, i.e. when its endpoints
have become equal. -/
def tailShrink : List Point → List Point
  | [] => []
  | [a] => [a]
  | [a, b] =>
    let b' := (LineSegment.mk a b).decrement.tail
    if a = b' then [a] else [a, b']
  | a :: b :: c :: rest => a :: tailShrink (b :: c :: rest)

/-- Embeds `Snake.move` (lines 229-246): head update, then collision
detection (a detected collision exits the program, modelled as `none`),
then tail shrink.  A snake with fewer than 2 points would raise an
IndexError building `first_seg`; that is modelled as `none` as well,
and every claim below restricts to snakes with at least 2 points. -/
def Snake.move (s : Snake) (d : Option Direction) : Option Snake :=
  match s.points with
  | _ :: _ :: _ =>
    if (s.headUpdate d).detect_collision then none
    else some { points := tailShrink (s.headUpdate d).points
                direction := (s.headUpdate d).direction }
  | _ => none

/-- Length of the segment between two grid points, as a natural number:
for the axis-aligned segments the snake is made of this coincides with
the Euclidean `LineSegment.length` of the source (the span along the
varying axis). -/
def segLen (a b : Point) : Nat :=
  (a.y - b.y).natAbs + (a.x - b.x).natAbs

/-- Total body length of a polyline: the sum of the lengths of the
segments between consecutive points. -/
def totalLen : List Point → Nat
  | a :: b :: rest => segLen a b + totalLen (b :: rest)
  | _ => 0

/-- A valid snake segment: axis-aligned (same y or same x) and of
positive length (distinct endpoints). -/
def alignedSegB (a b : Point) : Bool :=
  (decide (a.y = b.y) || decide (a.x = b.x)) && decide (a ≠ b)

/-- Every consecutive pair of the points list forms a valid segment. -/
def wfChain : List Point → Bool
  | a :: b :: rest => alignedSegB a b && wfChain (b :: rest)
  | _ => true

/-- The structural invariant of the snake from the spec: at least two
points, every segment axis-aligned and of positive length. -/
def WFSnake (s : Snake) : Prop :=
  2 ≤ s.points.length ∧ wfChain s.points = true

/-- The last segment of the points list (the one `last_seg` wraps) is
axis-aligned and of positive length. -/
def lastSegOK : List Point → Bool
  | [] => false
  | [_] => false
  | [a, b] => alignedSegB a b
  | _ :: b :: c :: rest => lastSegOK (b :: c :: rest)

/-! ### Basic lemmas about points and segments -/

theorem point_eq_iff {a b : Point} : a = b ↔ a.y = b.y ∧ a.x = b.x := by
  cases a; cases b; simp [Point.mk.injEq]

theorem segLen_eq_zero {a b : Point} : segLen a b = 0 ↔ a = b := by
  simp [segLen, point_eq_iff, Int.natAbs_eq_zero]
  omega

theorem segLen_comm (a b : Point) : segLen a b = segLen b a := by
  simp [segLen]
  omega

theorem segLen_move_one (p : Point) (d : Direction) : segLen (p.move d) p = 1 := by
  cases d <;> simp [Point.move, segLen]

/-- `increment` never touches the tail point. -/
theorem inc_tail (s : LineSegment) : s.increment.tail = s.tail := by
  unfold LineSegment.increment
  split_ifs <;> rfl

/-- `decrement` never touches the head point. -/
theorem dec_head (s : LineSegment) : s.decrement.head = s.head := by
  unfold LineSegment.decrement
  split_ifs <;> rfl

/-- On a valid (axis-aligned, positive-length) segment, `increment`
lengthens the segment by one and keeps it axis-aligned. -/
theorem inc_head_spec (a b : Point) (hal : a.y = b.y ∨ a.x = b.x) (hne : a ≠ b) :
    segLen (LineSegment.mk a b).increment.head b = segLen a b + 1 ∧
    ((LineSegment.mk a b).increment.head.y = b.y ∨
      (LineSegment.mk a b).increment.head.x = b.x) := by
  obtain ⟨p, q⟩ := a
  obtain ⟨r, t⟩ := b
  simp only [ne_eq, Point.mk.injEq, not_and] at hne
  simp only [LineSegment.increment, LineSegment.is_horizontal, LineSegment.is_vertical,
    Point.move, segLen] at *
  split_ifs at * <;> simp_all <;> omega

/-- On a valid (axis-aligned, positive-length) segment, `decrement`
shortens the segment by one and keeps it axis-aligned. -/
theorem dec_tail_spec (a b : Point) (hal : a.y = b.y ∨ a.x = b.x) (hne : a ≠ b) :
    segLen a (LineSegment.mk a b).decrement.tail + 1 = segLen a b ∧
    (a.y = (LineSegment.mk a b).decrement.tail.y ∨
      a.x = (LineSegment.mk a b).decrement.tail.x) := by
  obtain ⟨p, q⟩ := a
  obtain ⟨r, t⟩ := b
  simp only [ne_eq, Point.mk.injEq, not_and] at hne
  simp only [LineSegment.decrement, LineSegment.is_horizontal, LineSegment.is_vertical,
    Point.move, segLen] at *
  split_ifs at * <;> simp_all <;> omega

theorem alignedSegB_iff {a b : Point} :
    alignedSegB a b = true ↔ (a.y = b.y ∨ a.x = b.x) ∧ a ≠ b := by
  simp [alignedSegB]

/-! ### Lemmas about the tail-shrink phase -/

theorem totalLen_cons (a b : Point) (l : List Point) :
    totalLen (a :: b :: l) = segLen a b + totalLen (b :: l) := by
  simp [totalLen]

/-- `tailShrink` keeps the first element of the list. -/
theorem tailShrink_cons (b : Point) (l : List Point) :
    ∃ t, tailShrink (b :: l) = b :: t := by
  match l with
  | [] => exact ⟨[], rfl⟩
  | [c] =>
    simp only [tailShrink]
    split_ifs <;> exact ⟨_, rfl⟩
  | c :: d :: l' => exact ⟨_, rfl⟩

/-- When the last segment is valid, one tail shrink removes exactly one
unit of total body length. -/
theorem tailShrink_totalLen :
    ∀ pts : List Point, lastSegOK pts = true →
      totalLen (tailShrink pts) + 1 = totalLen pts
  | [], h => by simp [lastSegOK] at h
  | [_], h => by simp [lastSegOK] at h
  | [a, b], h => by
    simp only [lastSegOK, alignedSegB_iff] at h
    obtain ⟨hspec, _⟩ := dec_tail_spec a b h.1 h.2
    simp only [tailShrink]
    split_ifs with heq
    · have h0 : segLen a (LineSegment.mk a b).decrement.tail = 0 := by
        rw [segLen_eq_zero]
        exact heq
      simp only [totalLen]
      omega
    · simp only [totalLen]
      omega
  | a :: b :: c :: rest, h => by
    have ih := tailShrink_totalLen (b :: c :: rest) (by simpa [lastSegOK] using h)
    obtain ⟨t, ht⟩ := tailShrink_cons b (c :: rest)
    simp only [tailShrink, ht, totalLen_cons] at *
    omega

theorem wfChain_cons2 (a b : Point) (l : List Point) :
    wfChain (a :: b :: l) = (alignedSegB a b && wfChain (b :: l)) := rfl

/-- Tail shrinking preserves the valid-chain invariant. -/
theorem tailShrink_wf :
    ∀ pts : List Point, wfChain pts = true → wfChain (tailShrink pts) = true
  | [], _ => rfl
  | [_], _ => rfl
  | [a, b], h => by
    simp only [wfChain, alignedSegB_iff, Bool.and_true, Bool.and_eq_true] at h
    obtain ⟨_, hax⟩ := dec_tail_spec a b h.1 h.2
    simp only [tailShrink]
    split_ifs with heq
    · rfl
    · simp only [wfChain, alignedSegB_iff, Bool.and_true]
      exact ⟨hax, heq⟩
  | a :: b :: c :: rest, h => by
    rw [wfChain_cons2, Bool.and_eq_true] at h
    have ih := tailShrink_wf (b :: c :: rest) h.2
    obtain ⟨t, ht⟩ := tailShrink_cons b (c :: rest)
    simp only [tailShrink, ht] at ih ⊢
    rw [wfChain_cons2, Bool.and_eq_true]
    exact ⟨h.1, ih⟩

/-- A valid chain with at least two points has a valid last segment. -/
theorem wfChain_lastSegOK :
    ∀ pts : List Point, wfChain pts = true → 2 ≤ pts.length →
      lastSegOK pts = true
  | [], _, hl => by simp at hl
  | [_], _, hl => by simp at hl
  | [a, b], h, _ => by
    simp only [wfChain, Bool.and_eq_true] at h
    simpa [lastSegOK] using h.1
  | a :: b :: c :: rest, h, _ => by
    rw [wfChain_cons2, Bool.and_eq_true] at h
    have := wfChain_lastSegOK (b :: c :: rest) h.2 (by simp)
    simpa [lastSegOK] using this

/-- `tailShrink` removes at most one point. -/
theorem tailShrink_length :
    ∀ pts : List Point, pts.length ≤ (tailShrink pts).length + 1 ∧
      (tailShrink pts).length ≤ pts.length
  | [] => by simp [tailShrink]
  | [_] => by simp [tailShrink]
  | [a, b] => by
    simp only [tailShrink]
    split_ifs <;> simp
  | a :: b :: c :: rest => by
    have ih := tailShrink_length (b :: c :: rest)
    simp only [tailShrink, List.length_cons] at ih ⊢
    omega

/-! ### Lemmas about the head-update phase and `move` -/

/-- A point moved one unit stays axis-aligned with its origin. -/
theorem move_aligned (p : Point) (d : Direction) :
    (p.move d).y = p.y ∨ (p.move d).x = p.x := by
  cases d <;> simp [Point.move]

theorem move_ne (p : Point) (d : Direction) : p.move d ≠ p := by
  intro h
  have h1 := segLen_move_one p d
  rw [show segLen (p.move d) p = 0 from segLen_eq_zero.mpr h] at h1
  exact absurd h1 (by simp)

theorem headUpdate_straight (p0 p1 : Point) (rest : List Point) (dir : Direction)
    (d : Option Direction) (h : goesStraight d dir = true) :
    (Snake.mk (p0 :: p1 :: rest) dir).headUpdate d =
      Snake.mk ((LineSegment.mk p0 p1).increment.head :: p1 :: rest) dir := by
  simp [Snake.headUpdate, h]

theorem headUpdate_turn (p0 p1 : Point) (rest : List Point) (dir newd : Direction)
    (h : goesStraight (some newd) dir = false) :
    (Snake.mk (p0 :: p1 :: rest) dir).headUpdate (some newd) =
      Snake.mk (p0.move newd :: p0 :: p1 :: rest) newd := by
  simp [Snake.headUpdate, h]

/-- Both branches of the head update add exactly one unit of total body
length (the tail shrink of the same tick then takes it back). -/
theorem headUpdate_totalLen (p0 p1 : Point) (rest : List Point) (dir : Direction)
    (d : Option Direction) (hwf : wfChain (p0 :: p1 :: rest) = true) :
    totalLen ((Snake.mk (p0 :: p1 :: rest) dir).headUpdate d).points =
      totalLen (p0 :: p1 :: rest) + 1 := by
  rw [wfChain_cons2, Bool.and_eq_true, alignedSegB_iff] at hwf
  by_cases hgs : goesStraight d dir = true
  · rw [headUpdate_straight _ _ _ _ _ hgs]
    obtain ⟨hlen, _⟩ := inc_head_spec p0 p1 hwf.1.1 hwf.1.2
    simp only [totalLen_cons]
    omega
  · match d with
    | none => simp [goesStraight] at hgs
    | some newd =>
      rw [headUpdate_turn _ _ _ _ _ (by simpa using hgs)]
      have h1 := segLen_move_one p0 newd
      simp only [totalLen_cons]
      omega

/-- Both branches of the head update preserve the valid-chain invariant. -/
theorem headUpdate_wf (p0 p1 : Point) (rest : List Point) (dir : Direction)
    (d : Option Direction) (hwf : wfChain (p0 :: p1 :: rest) = true) :
    wfChain ((Snake.mk (p0 :: p1 :: rest) dir).headUpdate d).points = true := by
  have hwf' := hwf
  rw [wfChain_cons2, Bool.and_eq_true, alignedSegB_iff] at hwf'
  by_cases hgs : goesStraight d dir = true
  · rw [headUpdate_straight _ _ _ _ _ hgs]
    obtain ⟨hlen, hax⟩ := inc_head_spec p0 p1 hwf'.1.1 hwf'.1.2
    rw [wfChain_cons2, Bool.and_eq_true, alignedSegB_iff]
    refine ⟨⟨hax, fun h => ?_⟩, hwf'.2⟩
    rw [show segLen (LineSegment.mk p0 p1).increment.head p1 = 0 from
      segLen_eq_zero.mpr h] at hlen
    omega
  · match d with
    | none => simp [goesStraight] at hgs
    | some newd =>
      rw [headUpdate_turn _ _ _ _ _ (by simpa using hgs)]
      rw [wfChain_cons2, Bool.and_eq_true, alignedSegB_iff]
      exact ⟨⟨move_aligned p0 newd, move_ne p0 newd⟩, hwf⟩

theorem headUpdate_len2 (p0 p1 : Point) (rest : List Point) (dir : Direction)
    (d : Option Direction) :
    2 ≤ ((Snake.mk (p0 :: p1 :: rest) dir).headUpdate d).points.length := by
  by_cases hgs : goesStraight d dir = true
  · rw [headUpdate_straight _ _ _ _ _ hgs]; simp
  · match d with
    | none => simp [goesStraight] at hgs
    | some newd => rw [headUpdate_turn _ _ _ _ _ (by simpa using hgs)]; simp

/-- `Snake.move` unfolded on a snake with at least two points. -/
theorem move_eq (p0 p1 : Point) (rest : List Point) (dir : Direction)
    (d : Option Direction) :
    (Snake.mk (p0 :: p1 :: rest) dir).move d =
      if ((Snake.mk (p0 :: p1 :: rest) dir).headUpdate d).detect_collision then none
      else some (Snake.mk
        (tailShrink ((Snake.mk (p0 :: p1 :: rest) dir).headUpdate d).points)
        ((Snake.mk (p0 :: p1 :: rest) dir).headUpdate d).direction) := rfl

/-- The master length-preservation lemma: any completed move (straight
or turn) leaves the total body length of a well-formed snake unchanged. -/
theorem move_totalLen {s s' : Snake} {d : Option Direction} (hwf : WFSnake s)
    (hmv : s.move d = some s') : totalLen s'.points = totalLen s.points := by
  obtain ⟨pts, dir⟩ := s
  obtain ⟨hlen, hch⟩ := hwf
  match pts, hlen, hch, hmv with
  | p0 :: p1 :: rest, hlen, hch, hmv =>
    rw [move_eq] at hmv
    by_cases hc :
        ((Snake.mk (p0 :: p1 :: rest) dir).headUpdate d).detect_collision = true
    · rw [if_pos hc] at hmv
      exact absurd hmv (by simp)
    · rw [if_neg hc] at hmv
      have hs' := Option.some.inj hmv
      subst hs'
      have hWFhu := headUpdate_wf p0 p1 rest dir d hch
      have hLenhu := headUpdate_len2 p0 p1 rest dir d
      have hlast := wfChain_lastSegOK _ hWFhu hLenhu
      have h1 := tailShrink_totalLen _ hlast
      have h2 := headUpdate_totalLen p0 p1 rest dir d hch
      change totalLen (tailShrink
        ((Snake.mk (p0 :: p1 :: rest) dir).headUpdate d).points) =
        totalLen (p0 :: p1 :: rest)
      omega

theorem segLen_pos {a b : Point} (hne : a ≠ b) : 1 ≤ segLen a b :=
  Nat.one_le_iff_ne_zero.mpr fun h => hne (segLen_eq_zero.mp h)

theorem headUpdate_points_straight (p0 p1 : Point) (rest : List Point)
    (dir : Direction) (d : Option Direction) (h : goesStraight d dir = true) :
    ((Snake.mk (p0 :: p1 :: rest) dir).headUpdate d).points =
      (LineSegment.mk p0 p1).increment.head :: p1 :: rest := by
  rw [headUpdate_straight _ _ _ _ _ h]

theorem headUpdate_points_turn (p0 p1 : Point) (rest : List Point)
    (dir newd : Direction) (h : goesStraight (some newd) dir = false) :
    ((Snake.mk (p0 :: p1 :: rest) dir).headUpdate (some newd)).points =
      p0.move newd :: p0 :: p1 :: rest := by
  rw [headUpdate_turn _ _ _ _ _ h]

/-- A two-point snake whose only segment has length at least 2 keeps
both points through a tail shrink. -/
theorem tailShrink_two_len (a b : Point) (hal : a.y = b.y ∨ a.x = b.x)
    (h2 : 2 ≤ segLen a b) : (tailShrink [a, b]).length = 2 := by
  have hne : a ≠ b := by
    intro h
    rw [← segLen_eq_zero] at h
    omega
  obtain ⟨hspec, _⟩ := dec_tail_spec a b hal hne
  simp only [tailShrink]
  split_ifs with heq
  · rw [segLen_eq_zero.mpr heq] at hspec
    omega
  · simp

/-- The master invariant-preservation lemma: any completed move keeps
the snake well-formed (at least 2 points, all segments axis-aligned and
of positive length). -/
theorem move_WF {s s' : Snake} {d : Option Direction} (hwf : WFSnake s)
    (hmv : s.move d = some s') : WFSnake s' := by
  obtain ⟨pts, dir⟩ := s
  obtain ⟨hlen, hch⟩ := hwf
  match pts, hlen, hch, hmv with
  | p0 :: p1 :: rest, hlen, hch, hmv =>
    rw [move_eq] at hmv
    by_cases hc :
        ((Snake.mk (p0 :: p1 :: rest) dir).headUpdate d).detect_collision = true
    · rw [if_pos hc] at hmv
      exact absurd hmv (by simp)
    · rw [if_neg hc] at hmv
      have hs' := Option.some.inj hmv
      subst hs'
      have hWFhu := headUpdate_wf p0 p1 rest dir d hch
      refine ⟨?_, tailShrink_wf _ hWFhu⟩
      change 2 ≤ (tailShrink
        ((Snake.mk (p0 :: p1 :: rest) dir).headUpdate d).points).length
      by_cases hgs : goesStraight d dir = true
      · rw [headUpdate_points_straight _ _ _ _ _ hgs]
        match rest with
        | [] =>
          have hch' := hch
          rw [wfChain_cons2, Bool.and_eq_true, alignedSegB_iff] at hch'
          obtain ⟨hinc, hax⟩ := inc_head_spec p0 p1 hch'.1.1 hch'.1.2
          have h1 : 1 ≤ segLen p0 p1 := segLen_pos hch'.1.2
          rw [tailShrink_two_len _ _ hax (by omega)]
        | c :: rest' =>
          have hts := tailShrink_length
            ((LineSegment.mk p0 p1).increment.head :: p1 :: c :: rest')
          simp only [List.length_cons] at hts ⊢
          omega
      · match d with
        | none => simp [goesStraight] at hgs
        | some newd =>
          rw [headUpdate_points_turn _ _ _ _ _ (by simpa using hgs)]
          have hts := tailShrink_length (p0.move newd :: p0 :: p1 :: rest)
          simp only [List.length_cons] at hts ⊢
          omega

/-- Characterisation of `List.any` over the consecutive segments of a
list, by index. -/
theorem segsFrom_any_iff (f : LineSegment → Bool) :
    ∀ l : List Point, ((segsFrom l).any f = true ↔
      ∃ i : Nat, ∃ h : i + 1 < l.length,
        f (LineSegment.mk (l.get ⟨i, by omega⟩) (l.get ⟨i + 1, h⟩)) = true)
  | [] => by simp [segsFrom]
  | [a] => by simp [segsFrom]
  | a :: b :: rest => by
    have ih := segsFrom_any_iff f (b :: rest)
    simp only [segsFrom, List.any_cons, Bool.or_eq_true, ih]
    constructor
    · rintro (h | ⟨i, hi, hf⟩)
      · exact ⟨0, by simp, by simpa using h⟩
      · refine ⟨i + 1, by simpa using Nat.succ_lt_succ hi, ?_⟩
        simpa using hf
    · rintro ⟨i, hi, hf⟩
      match i with
      | 0 =>
        left
        simpa using hf
      | i + 1 =>
        right
        refine ⟨i, by simpa using Nat.lt_of_succ_lt_succ hi, ?_⟩
        simpa using hf

/-! ### Claim theorems -/

/-- Formalisation of the spec's description of a collision, to compare
with `Snake.detect_collision`: the head point `points[0]` lies on some
body segment formed from consecutive points starting at `points[1]`,
i.e. on a segment `(points[i+1], points[i+2])` — every segment strictly
excluding the first (head) segment. -/
def specCollision (s : Snake) : Prop :=
  ∃ i : Nat, ∃ hi : i + 2 < s.points.length,
    (LineSegment.mk (s.points.get ⟨i + 1, by omega⟩)
        (s.points.get ⟨i + 2, hi⟩)).lies_on
      (s.points.get ⟨0, by omega⟩) = true

/-- Claim C1: `detect_collision` reports a collision iff the snake's
head point `points[0]` lies on some body segment formed from
consecutive points starting at `points[1]` (every segment strictly
excluding the head segment); and within `move` the check runs after
the head has been extended or a new head prepended but before the tail
decrement: `move` ends with a collision exactly when
`detect_collision` holds of the post-head-update, pre-tail-shrink
state, so a head on the segment the tail is about to vacate is still
reported. -/
theorem c1_detect_collision_spec (s : Snake) (h2 : 2 ≤ s.points.length) :
    (s.detect_collision = true ↔ specCollision s) ∧
    ∀ d : Option Direction,
      (s.move d = none ↔ (s.headUpdate d).detect_collision = true) := by
  obtain ⟨pts, dir⟩ := s
  match pts, h2 with
  | p0 :: p1 :: rest, _ =>
    constructor
    · have hany := segsFrom_any_iff (fun seg => seg.lies_on p0) (p1 :: rest)
      change (segsFrom (p1 :: rest)).any (fun seg => seg.lies_on p0) = true ↔ _
      rw [hany]
      constructor
      · rintro ⟨i, hi, hf⟩
        refine ⟨i, by simpa using Nat.succ_lt_succ hi, ?_⟩
        simpa using hf
      · rintro ⟨i, hi, hf⟩
        refine ⟨i, by simpa using Nat.lt_of_succ_lt_succ hi, ?_⟩
        simpa using hf
    · intro d
      rw [move_eq]
      by_cases hc :
          ((Snake.mk (p0 :: p1 :: rest) dir).headUpdate d).detect_collision = true
      · rw [if_pos hc]
        simp [hc]
      · rw [if_neg hc]
        simp [hc]

theorem c1_witness :
    2 ≤ (Snake.mk ([⟨0,0⟩,⟨0,3⟩,⟨3,3⟩,⟨3,0⟩,⟨0,0⟩] : List Point)
        .west).points.length ∧
    (((Snake.mk ([⟨0,0⟩,⟨0,3⟩,⟨3,3⟩,⟨3,0⟩,⟨0,0⟩] : List Point)
          .west).detect_collision = true ↔
        specCollision (Snake.mk ([⟨0,0⟩,⟨0,3⟩,⟨3,3⟩,⟨3,0⟩,⟨0,0⟩] : List Point)
          .west)) ∧
      ∀ d : Option Direction,
        ((Snake.mk ([⟨0,0⟩,⟨0,3⟩,⟨3,3⟩,⟨3,0⟩,⟨0,0⟩] : List Point)
            .west).move d = none ↔
          ((Snake.mk ([⟨0,0⟩,⟨0,3⟩,⟨3,3⟩,⟨3,0⟩,⟨0,0⟩] : List Point)
              .west).headUpdate d).detect_collision = true)) :=
  ⟨by decide, c1_detect_collision_spec _ (by decide)⟩

/-- Claim C7: a move requesting the exact opposite of the current
direction produces exactly the same resulting snake state (points and
direction) as a move with no requested direction: the opposite request
never takes the turn branch. -/
theorem c7_opposite_is_straight (s : Snake) (d : Direction)
    (h : d.is_opp s.direction = true) :
    s.move (some d) = s.move none := by
  obtain ⟨pts, dir⟩ := s
  match pts with
  | [] => rfl
  | [_] => rfl
  | p0 :: p1 :: rest =>
    have hgs : goesStraight (some d) dir = true := by
      simp only [Direction.is_opp] at h ⊢
      simp [goesStraight, Direction.is_opp, h]
    rw [move_eq, move_eq]
    rw [headUpdate_straight p0 p1 rest dir (some d) hgs,
      headUpdate_straight p0 p1 rest dir none rfl]

theorem c7_witness :
    Direction.west.is_opp (Snake.mk ([⟨0,0⟩,⟨0,5⟩] : List Point)
      .east).direction = true ∧
    (Snake.mk ([⟨0,0⟩,⟨0,5⟩] : List Point) .east).move (some .west) =
      (Snake.mk ([⟨0,0⟩,⟨0,5⟩] : List Point) .east).move none :=
  ⟨by decide, c7_opposite_is_straight _ .west (by decide)⟩

/-- Claim C10: a snake with exactly 2 points never reports a
collision, regardless of the head's position: the only candidate
segment is the head segment itself, which `detect_collision` excludes,
so its loop over non-head segments is empty. -/
theorem c10_two_points_no_collision (s : Snake) (h : s.points.length = 2) :
    s.detect_collision = false := by
  obtain ⟨pts, dir⟩ := s
  match pts, h with
  | [a, b], _ => rfl

theorem c10_witness :
    (Snake.mk ([⟨0,0⟩,⟨5,0⟩] : List Point) .north).points.length = 2 ∧
    (Snake.mk ([⟨0,0⟩,⟨5,0⟩] : List Point) .north).detect_collision = false :=
  ⟨by decide, c10_two_points_no_collision _ (by decide)⟩

instance (s : Snake) : Decidable (WFSnake s) := by
  unfold WFSnake
  infer_instance

/-- Claim C2: for every snake with at least 2 points whose segments are
axis-aligned and of positive length, a move whose requested direction
is None, equal to the current direction, or opposite to it leaves the
total body length (sum over consecutive point pairs of segment
lengths) unchanged. -/
theorem c2_straight_length_constant (s s' : Snake) (d : Option Direction)
    (hwf : WFSnake s)
    (hd : d = none ∨ d = some s.direction ∨
      ∃ dir, d = some dir ∧ dir.is_opp s.direction = true)
    (hmv : s.move d = some s') :
    totalLen s'.points = totalLen s.points :=
  move_totalLen hwf hmv

theorem c2_witness :
    WFSnake (Snake.mk ([⟨10,20⟩,⟨10,10⟩] : List Point) .east) ∧
    ((none : Option Direction) = none ∨
      (none : Option Direction) = some Direction.east ∨
      ∃ dir, (none : Option Direction) = some dir ∧
        dir.is_opp Direction.east = true) ∧
    (Snake.mk ([⟨10,20⟩,⟨10,10⟩] : List Point) .east).move none =
      some (Snake.mk ([⟨10,21⟩,⟨10,11⟩] : List Point) .east) ∧
    totalLen (Snake.mk ([⟨10,21⟩,⟨10,11⟩] : List Point) .east).points =
      totalLen (Snake.mk ([⟨10,20⟩,⟨10,10⟩] : List Point) .east).points :=
  ⟨by decide, Or.inl rfl, by decide,
    c2_straight_length_constant _ _ none (by decide) (Or.inl rfl) (by decide)⟩

/-- The original claim C6 is false on the code: a perpendicular turn
does not increase the post-move total body length, because the tail
shrink happens in the same tick, not over subsequent ticks.  A north
turn of an east-facing snake of total length 10 yields total length 10
again, not 11. -/
theorem c6_counterexample :
    (Snake.mk ([⟨10,20⟩,⟨10,10⟩] : List Point) .east).move (some .north) =
      some (Snake.mk ([⟨9,20⟩,⟨10,20⟩,⟨10,11⟩] : List Point) .north) ∧
    totalLen ([⟨9,20⟩,⟨10,20⟩,⟨10,11⟩] : List Point) =
      totalLen ([⟨10,20⟩,⟨10,10⟩] : List Point) ∧
    totalLen ([⟨10,20⟩,⟨10,10⟩] : List Point) = 10 := by decide

/-- Claim C6 (amended): a move whose requested direction is a genuine
perpendicular turn leaves the post-move total body length unchanged,
exactly like straight ticks: the one unit gained by the prepended head
segment is taken back by the tail shrink of the same tick. -/
theorem c6_turn_length_constant (s s' : Snake) (d : Direction)
    (hwf : WFSnake s)
    (hturn : ¬(d = s.direction) ∧ d.is_opp s.direction = false)
    (hmv : s.move (some d) = some s') :
    totalLen s'.points = totalLen s.points :=
  move_totalLen hwf hmv

theorem c6_witness :
    WFSnake (Snake.mk ([⟨10,20⟩,⟨10,10⟩] : List Point) .east) ∧
    (¬(Direction.north = Direction.east) ∧
      Direction.north.is_opp Direction.east = false) ∧
    (Snake.mk ([⟨10,20⟩,⟨10,10⟩] : List Point) .east).move (some .north) =
      some (Snake.mk ([⟨9,20⟩,⟨10,20⟩,⟨10,11⟩] : List Point) .north) ∧
    totalLen (Snake.mk ([⟨9,20⟩,⟨10,20⟩,⟨10,11⟩] : List Point) .north).points =
      totalLen (Snake.mk ([⟨10,20⟩,⟨10,10⟩] : List Point) .east).points :=
  ⟨by decide, by decide, by decide,
    c6_turn_length_constant _ _ .north (by decide) (by decide) (by decide)⟩

/-- Claim C9: every completed (non-colliding) move, for any requested
direction, preserves the snake's structural invariant: the points
sequence keeps at least 2 points, every consecutive point pair is
axis-aligned (never diagonal), and no zero-length tail segment
persists (whenever the tail segment's length reaches 0 after the tail
decrement, the last point is removed), stated as every consecutive
pair being axis-aligned with distinct endpoints. -/
theorem c9_invariant_preserved (s s' : Snake) (d : Option Direction)
    (hwf : WFSnake s) (hmv : s.move d = some s') : WFSnake s' :=
  move_WF hwf hmv

theorem c9_witness :
    WFSnake (Snake.mk ([⟨10,20⟩,⟨10,10⟩] : List Point) .east) ∧
    (Snake.mk ([⟨10,20⟩,⟨10,10⟩] : List Point) .east).move (some .north) =
      some (Snake.mk ([⟨9,20⟩,⟨10,20⟩,⟨10,11⟩] : List Point) .north) ∧
    WFSnake (Snake.mk ([⟨9,20⟩,⟨10,20⟩,⟨10,11⟩] : List Point) .north) :=
  ⟨by decide, by decide,
    c9_invariant_preserved (Snake.mk ([⟨10,20⟩,⟨10,10⟩] : List Point) .east)
      (Snake.mk ([⟨9,20⟩,⟨10,20⟩,⟨10,11⟩] : List Point) .north)
      (some .north) (by decide) (by decide)⟩

/-- The original claim C3 is false on the code: the north-turn move
also decrements the tail in the same tick, so after the turn the last
point is (10,12), not (10,11). -/
theorem c3_counterexample :
    (Snake.mk ([⟨10,21⟩,⟨10,11⟩] : List Point) .east).move (some .north) ≠
      some (Snake.mk ([⟨9,21⟩,⟨10,21⟩,⟨10,11⟩] : List Point) .north) := by
  decide

/-- Claim C3 (amended): starting from points [(10,20),(10,10)] facing
east, a move with no direction yields points [(10,21),(10,11)]; the
subsequent north move prepends the new head (9,21), sets direction
north, and also shrinks the tail in the same tick, yielding points
[(9,21),(10,21),(10,12)]. -/
theorem c3_scenario :
    (Snake.mk ([⟨10,20⟩,⟨10,10⟩] : List Point) .east).move none =
      some (Snake.mk ([⟨10,21⟩,⟨10,11⟩] : List Point) .east) ∧
    (Snake.mk ([⟨10,21⟩,⟨10,11⟩] : List Point) .east).move (some .north) =
      some (Snake.mk ([⟨9,21⟩,⟨10,21⟩,⟨10,12⟩] : List Point) .north) := by
  decide

/-- The original claim C4 is false on the code for the length-0 case:
`decrement` on a degenerate segment takes the horizontal branch (both
ends share their y), the `head.x < tail.x` test fails, and the tail is
moved one unit east — the segment is changed, not left alone. -/
theorem c4_counterexample :
    (LineSegment.mk ⟨0,0⟩ ⟨0,0⟩).decrement = LineSegment.mk ⟨0,0⟩ ⟨0,1⟩ ∧
    (LineSegment.mk ⟨0,0⟩ ⟨0,0⟩).decrement ≠ LineSegment.mk ⟨0,0⟩ ⟨0,0⟩ := by
  decide

/-- Claim C4 (amended): an axis-aligned segment of length 1 decremented
once reaches length 0; but a length-0 segment (head equal to tail) is
not left unchanged by `decrement`: its tail is moved one unit east,
producing a length-1 segment. -/
theorem c4_decrement_spec (seg : LineSegment)
    (h1 : segLen seg.head seg.tail = 1) :
    segLen seg.decrement.head seg.decrement.tail = 0 ∧
    ∀ p : Point, (LineSegment.mk p p).decrement =
      LineSegment.mk p (p.move .east) := by
  obtain ⟨a, b⟩ := seg
  simp only at h1
  have hal : a.y = b.y ∨ a.x = b.x := by
    have h0 : a.y - b.y = 0 ∨ a.x - b.x = 0 := by
      simp only [segLen] at h1
      omega
    rcases h0 with h0 | h0
    · exact Or.inl (by omega)
    · exact Or.inr (by omega)
  have hne : a ≠ b := by
    intro h
    rw [← segLen_eq_zero] at h
    omega
  obtain ⟨hdec, _⟩ := dec_tail_spec a b hal hne
  constructor
  · have hh : (LineSegment.mk a b).decrement.head = a := dec_head _
    rw [hh]
    omega
  · intro p
    simp [LineSegment.decrement, LineSegment.is_horizontal]

theorem c4_witness :
    segLen (LineSegment.mk ⟨0,0⟩ ⟨0,1⟩).head (LineSegment.mk ⟨0,0⟩ ⟨0,1⟩).tail = 1 ∧
    (segLen (LineSegment.mk ⟨0,0⟩ ⟨0,1⟩).decrement.head
        (LineSegment.mk ⟨0,0⟩ ⟨0,1⟩).decrement.tail = 0 ∧
      ∀ p : Point, (LineSegment.mk p p).decrement =
        LineSegment.mk p (p.move .east)) :=
  ⟨by decide, c4_decrement_spec _ (by decide)⟩

/-- The original claim C5 is false on the code: at the shared point
(5,2), with the vertical segment running from (5,2) up to (1,2), the
`is_above` test against the far vertical endpoint fails (5 ≤ 1 is
false), so the upper-left glyph is not selected. -/
theorem c5_counterexample :
    (LineSegment.mk ⟨5,2⟩ ⟨5,8⟩).join (LineSegment.mk ⟨5,2⟩ ⟨1,2⟩) ≠
      some (Corner.ulcorner, ⟨5,2⟩) := by
  decide

/-- Claim C5 (amended): for the horizontal segment (5,2)-(5,8) and the
vertical segment (5,2)-(1,2) sharing the point (5,2) (coordinates
(y,x)), `join` selects and writes the lower-left corner glyph at
(5,2): the intersection point is left of both horizontal endpoints and
below both vertical endpoints.  The same glyph results in either
argument order. -/
theorem c5_join_glyph :
    (LineSegment.mk ⟨5,2⟩ ⟨5,8⟩).join (LineSegment.mk ⟨5,2⟩ ⟨1,2⟩) =
      some (Corner.llcorner, ⟨5,2⟩) ∧
    (LineSegment.mk ⟨5,2⟩ ⟨1,2⟩).join (LineSegment.mk ⟨5,2⟩ ⟨5,8⟩) =
      some (Corner.llcorner, ⟨5,2⟩) := by
  decide

/-- Claim C8: when `move` is called with a direction that is neither
None, nor the current direction, nor its opposite, the head-update
phase (which runs before the tail shrink of the same tick) produces
the old points sequence with exactly one new point prepended — a copy
of the old head moved exactly one grid unit in the requested
direction — leaving the old head point unmutated at index 1, and the
snake's direction field becomes the requested direction. -/
theorem c8_turn_prepends (p0 p1 : Point) (rest : List Point)
    (cur d : Direction) (hne : ¬(d = cur)) (hopp : d.is_opp cur = false) :
    (Snake.mk (p0 :: p1 :: rest) cur).headUpdate (some d) =
      Snake.mk (p0.move d :: p0 :: p1 :: rest) d ∧
    segLen (p0.move d) p0 = 1 := by
  have hgs : goesStraight (some d) cur = false := by
    simp [goesStraight, hne, hopp]
  exact ⟨headUpdate_turn p0 p1 rest cur d hgs, segLen_move_one p0 d⟩

theorem c8_witness :
    ¬(Direction.north = Direction.east) ∧
    Direction.north.is_opp Direction.east = false ∧
    ((Snake.mk ([⟨10,20⟩,⟨10,10⟩] : List Point) .east).headUpdate
        (some .north) =
      Snake.mk ((⟨10,20⟩ : Point).move .north :: [⟨10,20⟩,⟨10,10⟩]) .north ∧
    segLen ((⟨10,20⟩ : Point).move .north) ⟨10,20⟩ = 1) :=
  ⟨by decide, by decide,
    c8_turn_prepends ⟨10,20⟩ ⟨10,10⟩ [] .east .north (by decide) (by decide)⟩
